import Mathlib

/-
Formal model of the ingressd reconciliation daemon.

ingressd discovers candidate endpoints by EC2 tag query, validates each
candidate with quorum-based HTTP(S) health probing, resolves the Route53
hosted zone owning each configured record by longest-suffix match, and
upserts multi-value A record sets containing the endpoints that passed.

The Go sources are embedded shallowly:

- External collaborators (the EC2 DescribeInstances call, the Route53
  ListHostedZones and ChangeResourceRecordSets calls, and the HTTP
  transport used by the prober) are passed in as explicit response values
  or response functions, exactly as the repository's own tests inject
  them through the ec2Describer, route53ReadWriter and httpDoer
  interfaces.
- Functions that perform Route53 calls additionally return the list of
  calls they issued, so that "never invokes the DNS collaborator" is
  expressible as an equation on that trace.
- The concurrent fan-out in ensureHostHealthChecks (one goroutine per
  trial, an atomic success counter, a WaitGroup barrier) is collapsed to
  a fold computing the same final counter value: each goroutine adds at
  most 1 to the counter and the barrier waits for all of them, so the
  final value is the order-independent count of successful trials.
- The goroutine-per-record fan-out in poll is modelled by concatenating
  the per-record call traces in record order; the claims proved below
  only inspect whether the trace is empty, which is
  interleaving-independent.
- Go's net.ParseIP and net.IP.String (the Go 1.16 standard library the
  repository builds against, per its Dockerfile) are modelled byte per
  byte below, with net.IP as a list of byte values, and the error
  behaviour of net/url.Parse is modelled on the strings the program
  passes to it (the outputs of net.IP.String).
-/

set_option autoImplicit false

deriving instance DecidableEq for Except

namespace Ingressd

/-- Go net.IP: a byte slice, each element a byte value. -/
abbrev IP := List Nat

/-- Go net: the overflow cutoff used by the decimal and hex digit readers. -/
def bigCutoff : Nat := 0xFFFFFF

/-- Loop of Go net's dtoi: read leading decimal digits, returning the value
and the number of characters consumed; none models ok == false (no digit,
or value reached the cutoff). -/
def dtoiLoop : List Char → Nat → Nat → Option (Nat × Nat)
  | [], n, i => if i = 0 then none else some (n, i)
  | ch :: rest, n, i =>
    if '0' ≤ ch ∧ ch ≤ '9' then
      let n' := n * 10 + (ch.toNat - '0'.toNat)
      if n' ≥ bigCutoff then none else dtoiLoop rest n' (i + 1)
    else if i = 0 then none else some (n, i)

/-- Go net's dtoi. -/
def dtoi (s : List Char) : Option (Nat × Nat) := dtoiLoop s 0 0

/-- Value of one hexadecimal digit character, as in Go net's xtoi. -/
def hexDigitVal (ch : Char) : Option Nat :=
  if '0' ≤ ch ∧ ch ≤ '9' then some (ch.toNat - '0'.toNat)
  else if 'a' ≤ ch ∧ ch ≤ 'f' then some (ch.toNat - 'a'.toNat + 10)
  else if 'A' ≤ ch ∧ ch ≤ 'F' then some (ch.toNat - 'A'.toNat + 10)
  else none

/-- Loop of Go net's xtoi: read leading hexadecimal digits. -/
def xtoiLoop : List Char → Nat → Nat → Option (Nat × Nat)
  | [], n, i => if i = 0 then none else some (n, i)
  | ch :: rest, n, i =>
    match hexDigitVal ch with
    | none => if i = 0 then none else some (n, i)
    | some d =>
      let n' := n * 16 + d
      if n' ≥ bigCutoff then none else xtoiLoop rest n' (i + 1)

/-- Go net's xtoi. -/
def xtoi (s : List Char) : Option (Nat × Nat) := xtoiLoop s 0 0

/-- Leading bytes of the 16-byte form Go's IPv4() constructor returns for an
IPv4 address. -/
def v4MappedHeader : List Nat := [0, 0, 0, 0, 0, 0, 0, 0, 0, 0, 0xff, 0xff]

/-- Field loop of Go 1.16 net's parseIPv4: four dot-separated decimal fields,
each at most 0xFF (leading zeros are accepted in Go 1.16), nothing left
over afterwards. -/
def parseIPv4Loop : Nat → Bool → List Char → List Nat → Option (List Nat)
  | 0, _, s, acc => if s.isEmpty then some acc else none
  | fieldsLeft + 1, needDot, s, acc =>
    if s.isEmpty then none
    else
      let s1 : Option (List Char) :=
        if needDot then
          match s with
          | '.' :: rest => some rest
          | _ => none
        else some s
      match s1 with
      | none => none
      | some s2 =>
        match dtoi s2 with
        | none => none
        | some (n, c) =>
          if n > 0xFF then none
          else parseIPv4Loop fieldsLeft true (s2.drop c) (acc ++ [n])

/-- Go 1.16 net's parseIPv4, returning the 16-byte IPv4() form on success. -/
def parseIPv4 (s : List Char) : Option IP :=
  match parseIPv4Loop 4 false s [] with
  | some bytes => some (v4MappedHeader ++ bytes)
  | none => none

/-- Main loop of Go 1.16 net's parseIPv6. The accumulator holds the bytes
written so far (its length is the loop's index i); the result is the loop
exit state (remaining input, ellipsis position, bytes). The fuel argument
bounds the iteration count: every recursive call grows the accumulator by
two bytes and the loop stops at sixteen, so fuel 9 is never exhausted. -/
def parseIPv6Loop : Nat → List Char → Option Nat → List Nat →
    Option (List Char × Option Nat × List Nat)
  | 0, _, _, _ => none
  | fuel + 1, s, ellipsis, acc =>
    if 16 ≤ acc.length then some (s, ellipsis, acc)
    else
      match xtoi s with
      | none => none
      | some (n, c) =>
        if n > 0xFFFF then none
        else if (s.drop c).head? = some '.' then
          if ellipsis.isNone ∧ acc.length ≠ 12 then none
          else if acc.length + 4 > 16 then none
          else
            match parseIPv4 s with
            | none => none
            | some ip4 => some ([], ellipsis, acc ++ ip4.drop 12)
        else
          let acc2 := acc ++ [n / 256, n % 256]
          let s2 := s.drop c
          if s2.isEmpty then some ([], ellipsis, acc2)
          else if s2.head? ≠ some ':' ∨ s2.length = 1 then none
          else
            let s3 := s2.tail
            if s3.head? = some ':' then
              if ellipsis.isSome then none
              else
                let s4 := s3.tail
                if s4.isEmpty then some ([], some acc2.length, acc2)
                else parseIPv6Loop fuel s4 (some acc2.length) acc2
            else parseIPv6Loop fuel s3 ellipsis acc2

/-- Post-loop checks of Go 1.16 net's parseIPv6: all input consumed, and an
ellipsis expanded to the missing zero bytes (mandatory when fewer than
sixteen bytes were read, forbidden when all sixteen were). -/
def parseIPv6Finish : Option (List Char × Option Nat × List Nat) → Option IP
  | none => none
  | some (s, ellipsis, acc) =>
    if ¬ s.isEmpty then none
    else if acc.length < 16 then
      match ellipsis with
      | none => none
      | some e => some (acc.take e ++ List.replicate (16 - acc.length) 0 ++ acc.drop e)
    else if ellipsis.isSome then none
    else some acc

/-- Go 1.16 net's parseIPv6, including the leading "::" special case. -/
def parseIPv6 (s0 : List Char) : Option IP :=
  match s0 with
  | ':' :: ':' :: rest =>
    if rest.isEmpty then some (List.replicate 16 0)
    else parseIPv6Finish (parseIPv6Loop 9 rest (some 0) [])
  | _ => parseIPv6Finish (parseIPv6Loop 9 s0 none [])

/-- Index of the last occurrence of a character, as Go net's last. -/
def lastIndexAux : List Char → Char → Nat → Option Nat
  | [], _, _ => none
  | x :: xs, c, i =>
    match lastIndexAux xs c (i + 1) with
    | some j => some j
    | none => if x = c then some i else none

/-- Host part of Go net's splitHostZone: everything before the last percent
sign when that sign is at a positive index (the zone part is discarded by
ParseIP's v6 branch). -/
def splitHostZone (s : List Char) : List Char :=
  match lastIndexAux s '%' 0 with
  | some i => if i > 0 then s.take i else s
  | none => s

/-- Dispatch scan of Go net.ParseIP: the first dot or colon decides between
the IPv4 and IPv6 grammars. -/
def ipDispatch : List Char → Option Char
  | [] => none
  | c :: rest => if c = '.' ∨ c = ':' then some c else ipDispatch rest

/-- Go 1.16 net.ParseIP; none models the nil return. -/
def goParseIP (s : String) : Option IP :=
  match ipDispatch s.data with
  | some '.' => parseIPv4 s.data
  | some ':' => parseIPv6 (splitHostZone s.data)
  | _ => none

/-- Go net's IPv4 constructor (16-byte mapped form). -/
def goIPv4 (a b c d : Nat) : IP := v4MappedHeader ++ [a, b, c, d]

/-- Go net.IP.To4: the 4-byte form of an IPv4 or IPv4-mapped address. -/
def ipTo4 (ip : IP) : Option (List Nat) :=
  if ip.length = 4 then some ip
  else if ip.length = 16 ∧ ip.take 10 = List.replicate 10 0 ∧
      ip.get? 10 = some 0xff ∧ ip.get? 11 = some 0xff then
    some (ip.drop 12)
  else none

/-- Two lowercase hex digits for one byte, as Go net's hexString emits. -/
def hexChunk (b : Nat) : String := String.mk [Nat.digitChar (b / 16), Nat.digitChar (b % 16)]

/-- Go net's hexString. -/
def hexStringGo (bytes : List Nat) : String := String.join (bytes.map hexChunk)

/-- Go net's appendHex: lowercase hex without leading zeros, "0" for zero.
Nat.toDigits in base 16 produces exactly those characters. -/
def appendHexGo (n : Nat) : String := String.mk (Nat.toDigits 16 n)

/-- The 16-bit groups of an IPv6 byte list. -/
def pairBytes : List Nat → List Nat
  | a :: b :: rest => (a * 256 + b) :: pairBytes rest
  | _ => []

/-- Longest run of zero groups (earliest wins on equal length), compressed
only when at least two groups long — the e0/e1 scan of Go net.IP.String. -/
def bestZeroRun (gs : List Nat) : Option (Nat × Nat) :=
  let raw := (List.range gs.length).foldl (fun best i =>
    let len := ((gs.drop i).takeWhile (fun g => g == 0)).length
    match best with
    | none => if len > 0 then some (i, len) else none
    | some (_, blen) => if len > blen then some (i, len) else best) none
  match raw with
  | some (s, l) => if l ≥ 2 then some (s, l) else none
  | none => none

/-- Go net.IP.String: dotted quad for (mapped) IPv4, canonical "::"
compressed form for IPv6, the error forms otherwise. -/
def ipString (ip : IP) : String :=
  if ip.length = 0 then "<nil>"
  else
    match ipTo4 ip with
    | some p4 => String.intercalate "." (p4.map (fun b => toString b))
    | none =>
      if ip.length ≠ 16 then "?" ++ hexStringGo ip
      else
        match bestZeroRun (pairBytes ip) with
        | none => String.intercalate ":" ((pairBytes ip).map appendHexGo)
        | some (s, l) =>
          String.intercalate ":" (((pairBytes ip).take s).map appendHexGo) ++ "::" ++
            String.intercalate ":" (((pairBytes ip).drop (s + l)).map appendHexGo)

/-- Split at the first occurrence of a character, dropping it — Go
net/url's split(s, sep, true); when the character is absent the second
component is empty. -/
def splitFirst : List Char → Char → List Char × List Char
  | [], _ => ([], [])
  | c :: cs, sep =>
    if c = sep then ([], cs)
    else
      let (a, b) := splitFirst cs sep
      (c :: a, b)

/-- Scan of Go net/url's getScheme: the index of the colon ending a valid
scheme prefix (a letter, then letters, digits, plus, minus or dot), none
when the string has no scheme; a colon at index zero is the "missing
protocol scheme" error, and any other character ends the scan with no
scheme. -/
def getSchemeAux : List Char → Nat → Except String (Option Nat)
  | [], _ => Except.ok none
  | c :: cs, i =>
    if ('a' ≤ c ∧ c ≤ 'z') ∨ ('A' ≤ c ∧ c ≤ 'Z') then getSchemeAux cs (i + 1)
    else if ('0' ≤ c ∧ c ≤ '9') ∨ c = '+' ∨ c = '-' ∨ c = '.' then
      if i = 0 then Except.ok none else getSchemeAux cs (i + 1)
    else if c = ':' then
      if i = 0 then Except.error "missing protocol scheme"
      else Except.ok (some i)
    else Except.ok none

/-- Go net/url's getScheme: the scheme part and the rest after its colon. -/
def getSchemeGo (s : List Char) : Except String (List Char × List Char) :=
  match getSchemeAux s 0 with
  | Except.error e => Except.error e
  | Except.ok none => Except.ok ([], s)
  | Except.ok (some i) => Except.ok (s.take i, s.drop (i + 1))

/-- Error decision of Go net/url's parse(rawURL, viaRequest := false) on the
fragment-stripped input: the control-byte check, the "*" special case, the
scheme scan, the query split, and the relative-path first-segment colon
check, in source order. The two remaining continuations of parse — the
authority/path parsing behind a leading '/' and setPath's percent-escape
validation — can only be reached or only fail on strings containing '/'
or '%'; ipString never emits either character (theorem ipString_url_plain
below: its output alphabet is digitChar's range plus ". : ? < n i l >"),
so on every string this program passes to url.Parse those continuations
succeed, and they are modelled as success. -/
def urlParseInnerErr (u : List Char) : Option String :=
  if u.any (fun c => c.toNat < 0x20 ∨ c.toNat = 0x7f) then
    some "net/url: invalid control character in URL"
  else if u = ['*'] then none
  else
    match getSchemeGo u with
    | Except.error e => some e
    | Except.ok (scheme, rest0) =>
      let rest := (splitFirst rest0 '?').1
      if rest.head? = some '/' then none
      else if ¬ scheme.isEmpty then none
      else if ((splitFirst rest '/').1).contains ':' then
        some "first path segment in URL cannot contain colon"
      else none

/-- Go strconv's %q for the strings this program quotes: ipString output is
printable ASCII without a double quote or backslash, so quoting just
wraps it in double quotes. -/
def goQuote (s : String) : String := "\"" ++ s ++ "\""

/-- Error result of Go net/url.Parse: the fragment is split off first and
a parse error is wrapped as the url.Error string
(op, quoted URL, inner error). setFragment's escape validation cannot
fail here since ipString never emits '#' or '%', leaving the fragment
empty. none models a successful parse. -/
def urlParseErrGo (rawURL : String) : Option String :=
  let (u, _frag) := splitFirst rawURL.data '#'
  match urlParseInnerErr u with
  | some e => some ("parse " ++ goQuote (String.mk u) ++ ": " ++ e)
  | none => none

/-- Characters that keep a string clear of every collapsed branch of the
url.Parse model: printable (no control byte), and none of '/', '%', '#'. -/
def urlPlainChar (c : Char) : Bool :=
  decide (0x20 ≤ c.toNat ∧ c.toNat ≠ 0x7f ∧ c ≠ '/' ∧ c ≠ '%' ∧ c ≠ '#')

/-- Go aws.StringValue: dereference a possibly-nil string pointer, nil
becoming the empty string. -/
def awsStringValue (o : Option String) : String := o.getD ""

/-- Go len on a string counts UTF-8 bytes. -/
def goLen (s : String) : Nat := s.utf8ByteSize

/-- Go strings.HasSuffix, a byte-level suffix test. On the character lists
underlying Lean strings a character-level suffix is the same thing as a
byte-level suffix of the UTF-8 encoding, because a valid UTF-8 byte
sequence can only match at a character boundary. -/
def hasSuffixGo (s suffix : String) : Bool := suffix.data.isSuffixOf s.data

/-- Go strings.TrimSuffix: drop one trailing occurrence when present. -/
def stringsTrimSuffix (s suffix : String) : String :=
  if hasSuffixGo s suffix then String.mk (s.data.take (s.data.length - suffix.data.length))
  else s

/-- Go strings.Split for a one-character separator (the form main uses,
separator ","): always at least one element, empty input giving [""]. -/
def splitOnCharGo : List Char → Char → List (List Char)
  | [], _ => [[]]
  | c :: cs, sep =>
    let rest := splitOnCharGo cs sep
    if c = sep then [] :: rest
    else (c :: rest.headD []) :: rest.tail

/-- Record list computed by main from the AWS_ROUTE53_RECORDS environment
value: strings.Split(value, ","). -/
def parseRecordsEnv (env : String) : List String :=
  (splitOnCharGo env.data ',').map (fun cs => String.mk cs)

/-- Guard of main's fatal-at-startup check for the record list:
len(records) == 0 triggers log.Fatal. -/
def recordsFatal (env : String) : Bool := (parseRecordsEnv env).length == 0

/-- One EC2 instance as read by getTaggedEC2PublicIPAddrs: the instance id,
the State.Name field and the PublicIpAddress field (none models a nil
pointer, read through aws.StringValue). -/
structure EC2Instance where
  instanceId : Option String
  state : Option String
  publicIpAddress : Option String
deriving DecidableEq

/-- An EC2 reservation: a group of instances. -/
structure Reservation where
  instances : List EC2Instance
deriving DecidableEq

/-- Result shape of the ec2Describer collaborator's DescribeInstances. -/
structure DescribeInstancesOutput where
  reservations : List Reservation
deriving DecidableEq

/-- Route53 hosted zone as read by getRoute53HostedZoneID: Id and Name,
none modelling nil pointers. -/
structure HostedZone where
  id : Option String
  name : Option String
deriving DecidableEq

/-- Result shape of the route53ReadWriter collaborator's ListHostedZones. -/
structure ListHostedZonesOutput where
  hostedZones : List HostedZone
deriving DecidableEq

/-- A Route53 resource record value. -/
structure ResourceRecord where
  value : String
deriving DecidableEq

/-- A Route53 resource record set: name, values, TTL and record type. -/
structure ResourceRecordSet where
  name : String
  resourceRecords : List ResourceRecord
  ttl : Int
  type : String
deriving DecidableEq

/-- One Route53 change: an action applied to a record set. -/
structure Change where
  action : String
  resourceRecordSet : ResourceRecordSet
deriving DecidableEq

/-- A Route53 change batch. -/
structure ChangeBatch where
  changes : List Change
deriving DecidableEq

/-- Input of the route53ReadWriter collaborator's ChangeResourceRecordSets. -/
structure ChangeResourceRecordSetsInput where
  changeBatch : ChangeBatch
  hostedZoneId : String
deriving DecidableEq

/-- One call issued to the Route53 collaborator, recorded in call traces. -/
inductive R53Call where
  | listHostedZones
  | changeResourceRecordSets (input : ChangeResourceRecordSetsInput)
deriving DecidableEq

/-- awsManager.getTaggedEC2PublicIPAddrs of aws.go. The DescribeInstances
collaborator response is passed in (error models a failed call). Instances
whose State.Name is not "running" are skipped with a log line; a public
address is appended only when net.ParseIP accepts it. -/
def getTaggedEC2PublicIPAddrs (describeRes : Except String DescribeInstancesOutput) :
    Except String (List IP) :=
  match describeRes with
  | Except.error e => Except.error ("error describing instances: " ++ e)
  | Except.ok out =>
    Except.ok (out.reservations.foldl (fun ips res =>
      res.instances.foldl (fun ips2 inst =>
        if awsStringValue inst.state ≠ "running" then ips2
        else
          match goParseIP (awsStringValue inst.publicIpAddress) with
          | some publicIP => ips2 ++ [publicIP]
          | none => ips2) ips) [])

/-- awsManager.getRoute53HostedZoneID of aws.go. The ListHostedZones
collaborator response is passed in. Starting from the zero-valued
route53.HostedZone, a listed zone replaces the current candidate when the
host ends with the zone's name stripped of one trailing dot AND that
stripped name is longer (in Go byte length) than the stored, unstripped
Name of the current candidate. An empty final Id is the not-found error. -/
def getRoute53HostedZoneID (host : String)
    (zonesRes : Except String ListHostedZonesOutput) : Except String String :=
  match zonesRes with
  | Except.error e => Except.error ("error listing hosted zones: " ++ e)
  | Except.ok zones =>
    let found := zones.hostedZones.foldl (fun found zone =>
      let name := stringsTrimSuffix (awsStringValue zone.name) "."
      if hasSuffixGo host name ∧ goLen name > goLen (awsStringValue found.name) then zone
      else found) ⟨none, none⟩
    let id := awsStringValue found.id
    if id = "" then Except.error ("no zone id found for: " ++ host) else Except.ok id

/-- awsManager.ensureRoute53RecordSet of aws.go, returning the result
together with the trace of Route53 calls issued. The collaborator is
modelled by the ListHostedZones response and a response function for
ChangeResourceRecordSets. Empty input is rejected before any call; the
change is a single UPSERT of a type A record set with TTL 60 and one value
(ip.String()) per given address. -/
def ensureRoute53RecordSet (host : String) (ips : List IP)
    (zonesRes : Except String ListHostedZonesOutput)
    (changeRes : ChangeResourceRecordSetsInput → Except String Unit) :
    Except String Unit × List R53Call :=
  if ips.length = 0 then (Except.error "no ips provided", [])
  else
    let records := ips.foldl (fun rs ip => rs ++ [ResourceRecord.mk (ipString ip)]) []
    let change : Change :=
      { action := "UPSERT"
        resourceRecordSet :=
          { name := host
            resourceRecords := records
            ttl := 60
            type := "A" } }
    match getRoute53HostedZoneID host zonesRes with
    | Except.error e =>
      (Except.error ("error getting route53 hosted zone: " ++ e), [R53Call.listHostedZones])
    | Except.ok zoneID =>
      let input : ChangeResourceRecordSetsInput :=
        { changeBatch := { changes := [change] }, hostedZoneId := zoneID }
      match changeRes input with
      | Except.error e =>
        (Except.error ("error performing change to record set: " ++ e),
         [R53Call.listHostedZones, R53Call.changeResourceRecordSets input])
      | Except.ok _ =>
        (Except.ok (), [R53Call.listHostedZones, R53Call.changeResourceRecordSets input])

/-- Number of successful health check responses required per scheme
(healthcheck.go: healthCheckSuccess). -/
def healthCheckSuccess : Nat := 3

/-- Outcome of one httpClient.Do call: a transport error, or a response
carrying a status code. -/
inductive ProbeResult where
  | doError
  | response (statusCode : Nat)
deriving DecidableEq

/-- Body of one health check goroutine after the request is built: a Do
error returns without incrementing the counter, a response with status
other than 200 (http.StatusOK) returns without incrementing, and only a
200 response increments. (Building the GET request for a parsed
scheme://ip URL cannot fail, and a Body.Close error is deliberately not
treated as a failed check by the source.) -/
def healthCheckTrial (res : ProbeResult) : Bool :=
  match res with
  | ProbeResult.doError => false
  | ProbeResult.response statusCode => if statusCode ≠ 200 then false else true

/-- ensureHostHealthChecks of healthcheck.go. The injected httpDoer is
modelled as a function from (scheme, trial index) to the transport's
outcome for that trial; every trial issues GET scheme://ip/ with the Host
header forced to host. The function first validates url.Parse(ip.String())
and returns the wrapped parse error without running any trial when it
fails (as it does for IPv6 string forms such as "::1" or "2001:db8::1");
otherwise the atomic counter incremented by the 2 x 3 concurrent
goroutines and read after the WaitGroup barrier equals the count of
successful trials, computed here by a fold. The error carries the
failed/total counts as in the source. -/
def ensureHostHealthChecks (doer : String → Nat → ProbeResult) (ip : IP) (host : String) :
    Except String Unit :=
  match urlParseErrGo (ipString ip) with
  | some e => Except.error ("error parsing host url: " ++ e)
  | none =>
    let schemes := ["http", "https"]
    let success := schemes.foldl (fun acc scheme =>
      (List.range healthCheckSuccess).foldl (fun acc2 i =>
        if healthCheckTrial (doer scheme i) then acc2 + 1 else acc2) acc) 0
    let passRate := healthCheckSuccess * schemes.length
    if success ≠ passRate then
      Except.error ("failed " ++ toString (passRate - success) ++ " out of " ++
        toString passRate ++ " health checks")
    else Except.ok ()

/-- Healthy-subset loop of the per-record goroutine in poll
(healthcheck.go): run ensureHostHealthChecks per discovered address,
keeping the addresses whose checks all passed. The transport gives each
(address, record) pair its own per-scheme, per-trial outcomes. -/
def healthyIPs (transport : IP → String → String → Nat → ProbeResult)
    (ips : List IP) (record : String) : List IP :=
  ips.foldl (fun h ip =>
    match ensureHostHealthChecks (transport ip record) ip record with
    | Except.error _ => h
    | Except.ok _ => h ++ [ip]) []

/-- Body of the per-record goroutine in poll (healthcheck.go): build the
healthy subset of the discovered addresses, return without any Route53
call when it is empty, otherwise run ensureRoute53RecordSet. Returns the
trace of Route53 calls issued for this record. -/
def pollRecord (transport : IP → String → String → Nat → ProbeResult)
    (zonesRes : Except String ListHostedZonesOutput)
    (changeRes : ChangeResourceRecordSetsInput → Except String Unit)
    (ips : List IP) (record : String) : List R53Call :=
  let healthy := healthyIPs transport ips record
  if healthy.length = 0 then []
  else (ensureRoute53RecordSet record healthy zonesRes changeRes).2

/-- poll of healthcheck.go, as the trace of Route53 calls one cycle issues.
A discovery error or an empty discovered address set returns before any
record is reconciled; otherwise every record is reconciled (concurrently
in the source; the per-record traces are concatenated in record order,
which the emptiness facts proved below do not depend on). The metrics
gauge reset is a side effect outside this model. -/
def poll (describeRes : Except String DescribeInstancesOutput) (records : List String)
    (transport : IP → String → String → Nat → ProbeResult)
    (zonesRes : Except String ListHostedZonesOutput)
    (changeRes : ChangeResourceRecordSetsInput → Except String Unit) : List R53Call :=
  match getTaggedEC2PublicIPAddrs describeRes with
  | Except.error _ => []
  | Except.ok ips =>
    if ips.length = 0 then []
    else (records.map (fun record => pollRecord transport zonesRes changeRes ips record)).flatten

/-- Zone selection as the specification words it, for comparison with
getRoute53HostedZoneID: strip one trailing dot from each listed zone name,
keep the zones whose stripped name is a suffix of the record name, and
select the one with the longest stripped-suffix length, the first listed
winning at equal length. -/
def zoneResolutionSpec (host : String) (zones : List HostedZone) : Option String :=
  let found := zones.foldl (fun best zone =>
    let name := stringsTrimSuffix (awsStringValue zone.name) "."
    match best with
    | none => if hasSuffixGo host name then some (name, zone) else none
    | some (bestName, _) =>
      if hasSuffixGo host name ∧ goLen name > goLen bestName then some (name, zone)
      else best) none
  match found with
  | some (_, zone) => some (awsStringValue zone.id)
  | none => none

/-- Inventory listing of the end-to-end discovery scenario: four instances,
two running with addresses 192.168.0.1 and 192.168.0.2, one terminated
and one stopping, each with an address. -/
def inventoryScenario : DescribeInstancesOutput :=
  { reservations :=
      [{ instances :=
          [{ instanceId := some "1", state := some "running",
             publicIpAddress := some "192.168.0.1" },
           { instanceId := some "2", state := some "running",
             publicIpAddress := some "192.168.0.2" },
           { instanceId := some "3", state := some "terminated",
             publicIpAddress := some "192.168.0.3" },
           { instanceId := some "4", state := some "stopping",
             publicIpAddress := some "192.168.0.4" }] }] }

/-- Inventory listing whose running instances all carry an absent or
malformed public address field. -/
def malformedScenario : DescribeInstancesOutput :=
  { reservations :=
      [{ instances :=
          [{ instanceId := some "5", state := some "running",
             publicIpAddress := none },
           { instanceId := some "6", state := some "running",
             publicIpAddress := some "not-an-ip" },
           { instanceId := some "7", state := some "running",
             publicIpAddress := some "999.1.2.3" }] }] }

/-- Contribution of one listed instance to the discovery result: its parsed
public address when its lifecycle state is "running", nothing otherwise.
Characterises the body of getTaggedEC2PublicIPAddrs's loop. -/
def runningParsedIP (inst : EC2Instance) : Option IP :=
  if awsStringValue inst.state = "running" then
    goParseIP (awsStringValue inst.publicIpAddress)
  else none

/-- Accumulating fold: appending one image singleton per element computes
the map. -/
theorem foldl_append_singleton {α β : Type} (f : α → β) (l : List α) (acc : List β) :
    l.foldl (fun rs x => rs ++ [f x]) acc = acc ++ l.map f := by
  induction l generalizing acc with
  | nil => simp
  | cons x xs ih => simp [ih]

/-- Loop body of getTaggedEC2PublicIPAddrs: one instance contributes
exactly its runningParsedIP. -/
theorem ec2_step_eq (acc : List IP) (inst : EC2Instance) :
    (if awsStringValue inst.state ≠ "running" then acc
     else
       match goParseIP (awsStringValue inst.publicIpAddress) with
       | some publicIP => acc ++ [publicIP]
       | none => acc) = acc ++ (runningParsedIP inst).toList := by
  by_cases h : awsStringValue inst.state = "running"
  · cases hp : goParseIP (awsStringValue inst.publicIpAddress) <;>
      simp [runningParsedIP, h, hp]
  · simp [runningParsedIP, h]

/-- Instance loop of getTaggedEC2PublicIPAddrs: each instance contributes
its runningParsedIP when that is present. -/
theorem ec2_inner_foldl (insts : List EC2Instance) (acc : List IP) :
    insts.foldl (fun ips2 inst =>
      if awsStringValue inst.state ≠ "running" then ips2
      else
        match goParseIP (awsStringValue inst.publicIpAddress) with
        | some publicIP => ips2 ++ [publicIP]
        | none => ips2) acc = acc ++ insts.filterMap runningParsedIP := by
  induction insts generalizing acc with
  | nil => simp
  | cons i is ih =>
    simp only [List.foldl_cons]
    rw [ec2_step_eq, ih, List.filterMap_cons]
    cases hp : runningParsedIP i <;> simp

/-- Characterisation of discovery on a successful DescribeInstances call:
the result is ok and lists exactly the parses of the running instances'
public addresses, in listing order. -/
theorem getTagged_ok_eq (dio : DescribeInstancesOutput) :
    getTaggedEC2PublicIPAddrs (Except.ok dio) =
      Except.ok ((dio.reservations.flatMap Reservation.instances).filterMap runningParsedIP) := by
  have houter : ∀ (rs : List Reservation) (acc : List IP),
      rs.foldl (fun ips res =>
        res.instances.foldl (fun ips2 inst =>
          if awsStringValue inst.state ≠ "running" then ips2
          else
            match goParseIP (awsStringValue inst.publicIpAddress) with
            | some publicIP => ips2 ++ [publicIP]
            | none => ips2) ips) acc
        = acc ++ (rs.flatMap Reservation.instances).filterMap runningParsedIP := by
    intro rs
    induction rs with
    | nil => simp
    | cons r rs ih =>
      intro acc
      simp only [List.foldl_cons]
      rw [ec2_inner_foldl, ih, List.flatMap_cons, List.filterMap_append]
      simp [List.append_assoc]
  simp only [getTaggedEC2PublicIPAddrs, houter, List.nil_append]

/-- The healthy subset is empty when every address fails its checks. -/
theorem healthyIPs_eq_nil (transport : IP → String → String → Nat → ProbeResult)
    (ips : List IP) (record : String)
    (h : ∀ ip ∈ ips,
      ensureHostHealthChecks (transport ip record) ip record ≠ Except.ok ()) :
    healthyIPs transport ips record = [] := by
  unfold healthyIPs
  induction ips with
  | nil => rfl
  | cons ip ips ih =>
    simp only [List.foldl_cons]
    cases hc : ensureHostHealthChecks (transport ip record) ip record with
    | error e =>
      simp only [hc]
      exact ih (fun ip' hm => h ip' (List.mem_cons_of_mem _ hm))
    | ok u =>
      cases u
      exact absurd hc (h ip (List.mem_cons_self _ _))

/-- Zone-selection fold of getRoute53HostedZoneID: when no listed zone's
stripped name is a suffix of the host, the zero-valued zone survives. -/
theorem zone_fold_no_match (host : String) (l : List HostedZone)
    (h : ∀ zone ∈ l, hasSuffixGo host (stringsTrimSuffix (awsStringValue zone.name) ".") = false) :
    l.foldl (fun found zone =>
      let name := stringsTrimSuffix (awsStringValue zone.name) "."
      if hasSuffixGo host name ∧ goLen name > goLen (awsStringValue found.name) then zone
      else found) ⟨none, none⟩ = (⟨none, none⟩ : HostedZone) := by
  induction l with
  | nil => rfl
  | cons z zs ih =>
    have hz := h z (List.mem_cons_self _ _)
    simp only [List.foldl_cons]
    rw [if_neg (by simp [hz])]
    exact ih (fun z' hm => h z' (List.mem_cons_of_mem _ hm))

/-- Every character Nat.digitChar can produce (sixteen digits or the
fallback star) is plain for the url.Parse model. -/
theorem digitChar_url_plain (n : Nat) : urlPlainChar (Nat.digitChar n) = true := by
  by_cases h : n < 16
  · interval_cases n <;> decide
  · have hstar : Nat.digitChar n = '*' := by
      unfold Nat.digitChar
      repeat rw [if_neg (by omega)]
    rw [hstar]
    decide

/-- Characters accumulated by Nat.toDigitsCore over a plain accumulator
stay plain. -/
theorem toDigitsCore_url_plain (b : Nat) :
    ∀ (f n : Nat) (ds : List Char), (∀ c ∈ ds, urlPlainChar c = true) →
      ∀ c ∈ Nat.toDigitsCore b f n ds, urlPlainChar c = true := by
  intro f
  induction f with
  | zero =>
    intro n ds h c hc
    exact h c hc
  | succ f ih =>
    intro n ds h c hc
    rw [show Nat.toDigitsCore b (f + 1) n ds =
        (if n / b = 0 then Nat.digitChar (n % b) :: ds
         else Nat.toDigitsCore b f (n / b) (Nat.digitChar (n % b) :: ds)) from rfl] at hc
    have hcons : ∀ c2 ∈ Nat.digitChar (n % b) :: ds, urlPlainChar c2 = true := by
      intro c2 hc2
      rcases List.mem_cons.mp hc2 with rfl | hmem
      · exact digitChar_url_plain _
      · exact h c2 hmem
    by_cases hz : n / b = 0
    · rw [if_pos hz] at hc
      exact hcons c hc
    · rw [if_neg hz] at hc
      exact ih (n / b) (Nat.digitChar (n % b) :: ds) hcons c hc

/-- Characters of a number rendered by Nat.toDigits are plain. -/
theorem toDigits_url_plain (b n : Nat) : ∀ c ∈ Nat.toDigits b n, urlPlainChar c = true :=
  toDigitsCore_url_plain b (n + 1) n [] (fun c hc => absurd hc (List.not_mem_nil c))

/-- Characters of a Nat rendered by toString are plain. -/
theorem natToString_url_plain (n : Nat) : ∀ c ∈ (toString n).data, urlPlainChar c = true :=
  toDigits_url_plain 10 n

/-- Characters of appendHexGo output are plain. -/
theorem appendHexGo_url_plain (n : Nat) : ∀ c ∈ (appendHexGo n).data, urlPlainChar c = true :=
  toDigits_url_plain 16 n

/-- Folding string concatenation concatenates the character lists. -/
theorem foldl_strings_data (l : List String) (acc : String) :
    (l.foldl (fun r s => r ++ s) acc).data = acc.data ++ (l.map String.data).flatten := by
  induction l generalizing acc with
  | nil => simp
  | cons s ss ih =>
    simp only [List.foldl_cons, ih, List.map_cons, List.flatten_cons, String.data_append,
      List.append_assoc]

/-- Characters of hexStringGo output are plain. -/
theorem hexStringGo_url_plain (bytes : List Nat) :
    ∀ c ∈ (hexStringGo bytes).data, urlPlainChar c = true := by
  intro c hc
  have hj : (hexStringGo bytes).data = ((bytes.map hexChunk).map String.data).flatten := by
    have hfold := foldl_strings_data (bytes.map hexChunk) ""
    simpa [hexStringGo, String.join] using hfold
  rw [hj] at hc
  rcases List.mem_flatten.mp hc with ⟨piece, hpmem, hcp⟩
  rcases List.mem_map.mp hpmem with ⟨t, htmem, rfl⟩
  rcases List.mem_map.mp htmem with ⟨b, hbmem, rfl⟩
  rw [show (hexChunk b).data = [Nat.digitChar (b / 16), Nat.digitChar (b % 16)] from rfl] at hcp
  rcases List.mem_cons.mp hcp with rfl | hcp2
  · exact digitChar_url_plain _
  · rcases List.mem_cons.mp hcp2 with rfl | hcp3
    · exact digitChar_url_plain _
    · exact absurd hcp3 (List.not_mem_nil c)

/-- Character list produced by the intercalate worker. -/
theorem intercalate_go_data (sep : String) :
    ∀ (l : List String) (acc : String),
      (String.intercalate.go acc sep l).data =
        acc.data ++ (l.map (fun t => sep.data ++ t.data)).flatten := by
  intro l
  induction l with
  | nil =>
    intro acc
    simp [show ∀ a : String, String.intercalate.go a sep [] = a from fun _ => rfl]
  | cons a as ih =>
    intro acc
    rw [show String.intercalate.go acc sep (a :: as) =
        String.intercalate.go (acc ++ sep ++ a) sep as from rfl, ih]
    simp [String.data_append, List.append_assoc]

/-- Characters of an intercalation of plain strings by a plain separator
are plain. -/
theorem intercalate_url_plain (sep : String) (l : List String)
    (hsep : ∀ c ∈ sep.data, urlPlainChar c = true)
    (hl : ∀ t ∈ l, ∀ c ∈ t.data, urlPlainChar c = true) :
    ∀ c ∈ (String.intercalate sep l).data, urlPlainChar c = true := by
  intro c hc
  cases l with
  | nil => exact absurd hc (List.not_mem_nil c)
  | cons a as =>
    rw [show String.intercalate sep (a :: as) = String.intercalate.go a sep as from rfl,
      intercalate_go_data] at hc
    rcases List.mem_append.mp hc with h | h
    · exact hl a (List.mem_cons_self _ _) c h
    · rcases List.mem_flatten.mp h with ⟨piece, hpmem, hcp⟩
      rcases List.mem_map.mp hpmem with ⟨t, htmem, rfl⟩
      rcases List.mem_append.mp hcp with h2 | h2
      · exact hsep c h2
      · exact hl t (List.mem_cons_of_mem _ htmem) c h2

/-- Every character ipString can emit is plain: no slash, no percent sign,
no hash sign, no control byte. The collapsed authority, path-escape and
fragment-escape branches of the url.Parse model are therefore unreachable
on the strings this program feeds to url.Parse. -/
theorem ipString_url_plain (ip : IP) : ∀ c ∈ (ipString ip).data, urlPlainChar c = true := by
  intro c hc
  unfold ipString at hc
  by_cases h0 : ip.length = 0
  · rw [if_pos h0] at hc
    rw [show "<nil>".data = ['<', 'n', 'i', 'l', '>'] from rfl] at hc
    simp only [List.mem_cons, List.not_mem_nil, or_false] at hc
    rcases hc with rfl | rfl | rfl | rfl | rfl <;> decide
  · rw [if_neg h0] at hc
    cases h4 : ipTo4 ip with
    | some p4 =>
      rw [h4] at hc
      have hc2 : c ∈ (String.intercalate "." (p4.map (fun b => toString b))).data := hc
      refine intercalate_url_plain "." _ (by decide) ?_ c hc2
      intro t ht c2 hc3
      rcases List.mem_map.mp ht with ⟨b, hbmem, rfl⟩
      exact natToString_url_plain b c2 hc3
    | none =>
      rw [h4] at hc
      by_cases h16 : ip.length ≠ 16
      · rw [if_pos h16] at hc
        have hc2 : c ∈ ("?" ++ hexStringGo ip).data := hc
        rw [String.data_append, show "?".data = ['?'] from rfl] at hc2
        rcases List.mem_append.mp hc2 with h | h
        · rcases List.mem_cons.mp h with rfl | h2
          · decide
          · exact absurd h2 (List.not_mem_nil c)
        · exact hexStringGo_url_plain ip c h
      · rw [if_neg h16] at hc
        have hgroups : ∀ gs : List Nat, ∀ c2 ∈ (String.intercalate ":" (gs.map appendHexGo)).data,
            urlPlainChar c2 = true := by
          intro gs c2 hc3
          refine intercalate_url_plain ":" _ (by decide) ?_ c2 hc3
          intro t ht c3 hc4
          rcases List.mem_map.mp ht with ⟨g, hgmem, rfl⟩
          exact appendHexGo_url_plain g c3 hc4
        cases hbr : bestZeroRun (pairBytes ip) with
        | none =>
          rw [hbr] at hc
          exact hgroups (pairBytes ip) c hc
        | some sl =>
          obtain ⟨s, len⟩ := sl
          rw [hbr] at hc
          have hc2 : c ∈ (String.intercalate ":" (((pairBytes ip).take s).map appendHexGo) ++
              "::" ++
              String.intercalate ":" (((pairBytes ip).drop (s + len)).map appendHexGo)).data := hc
          rw [String.data_append, String.data_append] at hc2
          rcases List.mem_append.mp hc2 with h | h
          · rcases List.mem_append.mp h with h2 | h2
            · exact hgroups _ c h2
            · rw [show "::".data = [':', ':'] from rfl] at h2
              rcases List.mem_cons.mp h2 with rfl | h3
              · decide
              · rcases List.mem_cons.mp h3 with rfl | h4
                · decide
                · exact absurd h4 (List.not_mem_nil c)
          · exact hgroups _ c h

/-- Go's strings.Split never returns an empty slice. -/
theorem splitOnCharGo_ne_nil (s : List Char) (sep : Char) : splitOnCharGo s sep ≠ [] := by
  cases s with
  | nil => simp [splitOnCharGo]
  | cons c cs =>
    simp only [splitOnCharGo]
    split <;> simp

/-- C6: a single health-probe trial counts as a success if and only if the
transport returned a response without error and its status code is exactly
200; any transport error or non-200 status makes the trial a failure. -/
theorem claim_C6_trial_success_iff_200 (res : ProbeResult) :
    healthCheckTrial res = true ↔ res = ProbeResult.response 200 := by
  cases res with
  | doError => simp [healthCheckTrial]
  | response statusCode =>
    by_cases h : statusCode = 200 <;> simp [healthCheckTrial, h]

/-- Closed instance of claim C6's theorem at the successful status code. -/
theorem claim_C6_trial_success_iff_200_witness :
    healthCheckTrial (ProbeResult.response 200) = true :=
  (claim_C6_trial_success_iff_200 (ProbeResult.response 200)).mpr rfl

/-- C2: with an empty healthy endpoint set the DNS upsert collaborator is
never invoked. ensureRoute53RecordSet rejects an empty address list with
an error before issuing any Route53 call, and the per-record poll body
issues no Route53 call at all when every discovered address fails its
health checks. -/
theorem claim_C2_empty_healthy_no_upsert :
    (∀ host zonesRes changeRes,
      ensureRoute53RecordSet host [] zonesRes changeRes = (Except.error "no ips provided", [])) ∧
    (∀ transport zonesRes changeRes ips record,
      (∀ ip ∈ ips,
        ensureHostHealthChecks (transport ip record) ip record ≠ Except.ok ()) →
      pollRecord transport zonesRes changeRes ips record = []) := by
  constructor
  · intro host zonesRes changeRes
    simp [ensureRoute53RecordSet]
  · intro transport zonesRes changeRes ips record h
    unfold pollRecord
    rw [healthyIPs_eq_nil transport ips record h]
    simp

/-- Closed instance of claim C2's theorem: the empty-list rejection, and a
record whose single candidate fails every probe triggering no Route53
call. -/
theorem claim_C2_empty_healthy_no_upsert_witness :
    ensureRoute53RecordSet "syscll.org" []
        (Except.ok ⟨[⟨some "zone-1", some "syscll.org."⟩]⟩) (fun _ => Except.ok ()) =
      (Except.error "no ips provided", []) ∧
    pollRecord (fun _ _ _ _ => ProbeResult.doError)
        (Except.ok ⟨[⟨some "zone-1", some "syscll.org."⟩]⟩) (fun _ => Except.ok ())
        [goIPv4 192 168 0 1] "syscll.org" = [] := by
  constructor
  · exact claim_C2_empty_healthy_no_upsert.1 "syscll.org"
      (Except.ok ⟨[⟨some "zone-1", some "syscll.org."⟩]⟩) (fun _ => Except.ok ())
  · exact claim_C2_empty_healthy_no_upsert.2 (fun _ _ _ _ => ProbeResult.doError)
      (Except.ok ⟨[⟨some "zone-1", some "syscll.org."⟩]⟩) (fun _ => Except.ok ())
      [goIPv4 192 168 0 1] "syscll.org" (by decide)

/-- C5: a reconciliation cycle whose inventory query fails, or whose
discovered address set is empty, issues no Route53 call at all (neither a
zone listing nor an upsert, for any configured record). -/
theorem claim_C5_cycle_abort_no_dns :
    (∀ e records transport zonesRes changeRes,
      poll (Except.error e) records transport zonesRes changeRes = []) ∧
    (∀ dio records transport zonesRes changeRes,
      getTaggedEC2PublicIPAddrs (Except.ok dio) = Except.ok [] →
      poll (Except.ok dio) records transport zonesRes changeRes = []) := by
  constructor
  · intro e records transport zonesRes changeRes
    simp [poll, getTaggedEC2PublicIPAddrs]
  · intro dio records transport zonesRes changeRes h
    simp [poll, h]

/-- Closed instance of claim C5's theorem: a failed inventory query and an
empty inventory, each with a configured record, issue no Route53 call. -/
theorem claim_C5_cycle_abort_no_dns_witness :
    poll (Except.error "aws error") ["syscll.org"] (fun _ _ _ _ => ProbeResult.response 200)
        (Except.ok ⟨[⟨some "zone-1", some "syscll.org."⟩]⟩) (fun _ => Except.ok ()) = [] ∧
    poll (Except.ok ⟨[]⟩) ["syscll.org"] (fun _ _ _ _ => ProbeResult.response 200)
        (Except.ok ⟨[⟨some "zone-1", some "syscll.org."⟩]⟩) (fun _ => Except.ok ()) = [] := by
  constructor
  · exact claim_C5_cycle_abort_no_dns.1 "aws error" ["syscll.org"]
      (fun _ _ _ _ => ProbeResult.response 200)
      (Except.ok ⟨[⟨some "zone-1", some "syscll.org."⟩]⟩) (fun _ => Except.ok ())
  · exact claim_C5_cycle_abort_no_dns.2 ⟨[]⟩ ["syscll.org"]
      (fun _ _ _ _ => ProbeResult.response 200)
      (Except.ok ⟨[⟨some "zone-1", some "syscll.org."⟩]⟩) (fun _ => Except.ok ()) rfl

/-- C9: the startup guard for a missing record list can never fire, because
Go's strings.Split always returns at least one element: an unset or empty
AWS_ROUTE53_RECORDS value yields the record list [""] of length one, so
main proceeds with a single empty record name instead of failing fatally
as specified. -/
theorem claim_C9_records_fatal_unreachable :
    (∀ env, recordsFatal env = false) ∧ parseRecordsEnv "" = [""] := by
  constructor
  · intro env
    have h := splitOnCharGo_ne_nil env.data ','
    simp only [recordsFatal, parseRecordsEnv, List.length_map, beq_eq_false_iff_ne, ne_eq,
      List.length_eq_zero]
    exact h
  · decide

/-- C3: zone resolution does not always select the zone with the longest
stripped suffix. The loop compares a candidate's stripped-name length
against the stored, unstripped name length of the zone currently held, so
for the record "xsyscll.org" and the listing [z1: "syscll.org.",
z2: "xsyscll.org."] it keeps z1 even though z2's stripped suffix
"xsyscll.org" (length 11) is strictly longer than z1's "syscll.org"
(length 10); listing the same zones in the other order returns z2, and
the specification's own selection rule (zoneResolutionSpec) returns z2.
The claim's worked examples do hold, as the last three conjuncts show. -/
theorem claim_C3_zone_resolution_divergence :
    getRoute53HostedZoneID "xsyscll.org"
        (Except.ok ⟨[⟨some "z1", some "syscll.org."⟩, ⟨some "z2", some "xsyscll.org."⟩]⟩) =
      Except.ok "z1" ∧
    getRoute53HostedZoneID "xsyscll.org"
        (Except.ok ⟨[⟨some "z2", some "xsyscll.org."⟩, ⟨some "z1", some "syscll.org."⟩]⟩) =
      Except.ok "z2" ∧
    zoneResolutionSpec "xsyscll.org"
        [⟨some "z1", some "syscll.org."⟩, ⟨some "z2", some "xsyscll.org."⟩] = some "z2" ∧
    getRoute53HostedZoneID "ingressd.syscll.org"
        (Except.ok ⟨[⟨some "z1", some "syscll.org."⟩, ⟨some "z2", some "ingressd.syscll.org."⟩]⟩) =
      Except.ok "z2" ∧
    getRoute53HostedZoneID "other.syscll.org"
        (Except.ok ⟨[⟨some "z1", some "syscll.org."⟩, ⟨some "z2", some "ingressd.syscll.org."⟩]⟩) =
      Except.ok "z1" ∧
    getRoute53HostedZoneID "syscll.org"
        (Except.ok ⟨[⟨some "zone-1", some "syscll.org"⟩]⟩) = Except.ok "zone-1" :=
  ⟨rfl, rfl, rfl, rfl, rfl, rfl⟩

/-- C7: the two failure modes of zone resolution stay distinct. A failed
provider listing propagates as a listing error wrapping the provider's
message; a successful listing in which no zone's stripped suffix matches
the record yields the not-found error naming the record; and no listing
error ever equals a not-found error. -/
theorem claim_C7_zone_error_modes :
    (∀ host e, getRoute53HostedZoneID host (Except.error e) =
      Except.error ("error listing hosted zones: " ++ e)) ∧
    (∀ host zones,
      (∀ zone ∈ zones.hostedZones,
        hasSuffixGo host (stringsTrimSuffix (awsStringValue zone.name) ".") = false) →
      getRoute53HostedZoneID host (Except.ok zones) =
        Except.error ("no zone id found for: " ++ host)) ∧
    (∀ e host, ("error listing hosted zones: " ++ e : String) ≠
      "no zone id found for: " ++ host) := by
  refine ⟨fun host e => rfl, ?_, ?_⟩
  · intro host zones h
    simp only [getRoute53HostedZoneID]
    rw [zone_fold_no_match host zones.hostedZones h]
    rfl
  · intro e host heq
    have hdata := congrArg String.data heq
    rw [String.data_append, String.data_append] at hdata
    have htake := congrArg (fun l => List.take 3 l) hdata
    simp at htake

/-- Closed instance of claim C7's theorem: both failure modes at concrete
inputs. -/
theorem claim_C7_zone_error_modes_witness :
    getRoute53HostedZoneID "syscll.org" (Except.error "aws error") =
      Except.error ("error listing hosted zones: " ++ "aws error") ∧
    getRoute53HostedZoneID "syscll.org" (Except.ok ⟨[⟨some "z9", some "example.com."⟩]⟩) =
      Except.error ("no zone id found for: " ++ "syscll.org") :=
  ⟨claim_C7_zone_error_modes.1 "syscll.org" "aws error",
   claim_C7_zone_error_modes.2.1 "syscll.org" ⟨[⟨some "z9", some "example.com."⟩]⟩ (by decide)⟩

/-- C4: discovery puts an instance's public address in the candidate set
only if its lifecycle state is "running"; any other state is skipped
without producing an error; and the four-instance scenario (two running
with 192.168.0.1/.2, one terminated, one stopping) yields exactly those
two addresses. -/
theorem claim_C4_discovery_running_only :
    (∀ dio, ∃ ips, getTaggedEC2PublicIPAddrs (Except.ok dio) = Except.ok ips) ∧
    (∀ dio ips, getTaggedEC2PublicIPAddrs (Except.ok dio) = Except.ok ips →
      ∀ ip ∈ ips, ∃ res ∈ dio.reservations, ∃ inst ∈ res.instances,
        awsStringValue inst.state = "running" ∧
        goParseIP (awsStringValue inst.publicIpAddress) = some ip) ∧
    getTaggedEC2PublicIPAddrs (Except.ok inventoryScenario) =
      Except.ok [goIPv4 192 168 0 1, goIPv4 192 168 0 2] := by
  refine ⟨fun dio => ⟨_, getTagged_ok_eq dio⟩, ?_, by decide⟩
  intro dio ips h ip hip
  rw [getTagged_ok_eq] at h
  rcases h with ⟨⟩
  rcases List.mem_filterMap.mp hip with ⟨inst, hinst, hpick⟩
  rcases List.mem_flatMap.mp hinst with ⟨res, hres, hinstm⟩
  unfold runningParsedIP at hpick
  by_cases hrun : awsStringValue inst.state = "running"
  · rw [if_pos hrun] at hpick
    exact ⟨res, hres, inst, hinstm, hrun, hpick⟩
  · rw [if_neg hrun] at hpick
    cases hpick

/-- Closed instance of claim C4's theorem: the first discovered address of
the four-instance scenario comes from a running instance. -/
theorem claim_C4_discovery_running_only_witness :
    ∃ res ∈ inventoryScenario.reservations, ∃ inst ∈ res.instances,
      awsStringValue inst.state = "running" ∧
      goParseIP (awsStringValue inst.publicIpAddress) = some (goIPv4 192 168 0 1) :=
  claim_C4_discovery_running_only.2.1 inventoryScenario
    [goIPv4 192 168 0 1, goIPv4 192 168 0 2] claim_C4_discovery_running_only.2.2
    (goIPv4 192 168 0 1) (by decide)

/-- C10: for every successful inventory query, discovery returns ok and its
result is exactly the list of successfully parsed public addresses of the
running instances — a running instance whose address field is absent or
fails net.ParseIP contributes nothing and raises no error, as the
all-malformed scenario shows concretely. -/
theorem claim_C10_discovery_filtermap :
    (∀ dio, getTaggedEC2PublicIPAddrs (Except.ok dio) =
      Except.ok ((dio.reservations.flatMap Reservation.instances).filterMap runningParsedIP)) ∧
    getTaggedEC2PublicIPAddrs (Except.ok malformedScenario) = Except.ok [] :=
  ⟨getTagged_ok_eq, by decide⟩

/-- C8: a successful reconciliation of a non-empty healthy list issues
exactly one zone listing followed by exactly one change call, whose batch
is one UPSERT change of type A with TTL 60 against the resolved zone id,
carrying exactly one value (ip.String()) per healthy address; the payload
is a function of the record name, the healthy list and the resolved zone
only, so an unchanged healthy input reproduces the identical payload with
no accumulation of values. -/
theorem claim_C8_upsert_payload (host : String) (ips : List IP)
    (zonesRes : Except String ListHostedZonesOutput)
    (changeRes : ChangeResourceRecordSetsInput → Except String Unit)
    (h1 : ips ≠ [])
    (h2 : (ensureRoute53RecordSet host ips zonesRes changeRes).1 = Except.ok ()) :
    ∃ zid, getRoute53HostedZoneID host zonesRes = Except.ok zid ∧
      (ensureRoute53RecordSet host ips zonesRes changeRes).2 =
        [R53Call.listHostedZones,
         R53Call.changeResourceRecordSets
           { changeBatch :=
               { changes :=
                   [{ action := "UPSERT"
                      resourceRecordSet :=
                        { name := host
                          resourceRecords := ips.map (fun ip => ResourceRecord.mk (ipString ip))
                          ttl := 60
                          type := "A" } }] }
             hostedZoneId := zid }] := by
  have hlen : ¬ ips.length = 0 := by simpa [List.length_eq_zero] using h1
  unfold ensureRoute53RecordSet at h2 ⊢
  rw [if_neg hlen] at h2 ⊢
  rw [foldl_append_singleton, List.nil_append] at h2 ⊢
  cases hz : getRoute53HostedZoneID host zonesRes with
  | error e =>
    rw [hz] at h2
    simp at h2
  | ok zid =>
    refine ⟨zid, rfl, ?_⟩
    cases hc : changeRes
        { changeBatch :=
            { changes :=
                [{ action := "UPSERT"
                   resourceRecordSet :=
                     { name := host
                       resourceRecords := ips.map (fun ip => ResourceRecord.mk (ipString ip))
                       ttl := 60
                       type := "A" } }] }
          hostedZoneId := zid } with
    | error e => simp [hc]
    | ok u => simp [hc]

/-- Closed instance of claim C8's theorem: upserting [192.168.0.1] for
syscll.org against a one-zone listing. -/
theorem claim_C8_upsert_payload_witness :
    ∃ zid, getRoute53HostedZoneID "syscll.org"
        (Except.ok ⟨[⟨some "zone-1", some "syscll.org."⟩]⟩) = Except.ok zid ∧
      (ensureRoute53RecordSet "syscll.org" [goIPv4 192 168 0 1]
          (Except.ok ⟨[⟨some "zone-1", some "syscll.org."⟩]⟩) (fun _ => Except.ok ())).2 =
        [R53Call.listHostedZones,
         R53Call.changeResourceRecordSets
           { changeBatch :=
               { changes :=
                   [{ action := "UPSERT"
                      resourceRecordSet :=
                        { name := "syscll.org"
                          resourceRecords :=
                            [goIPv4 192 168 0 1].map (fun ip => ResourceRecord.mk (ipString ip))
                          ttl := 60
                          type := "A" } }] }
             hostedZoneId := zid }] :=
  claim_C8_upsert_payload "syscll.org" [goIPv4 192 168 0 1]
    (Except.ok ⟨[⟨some "zone-1", some "syscll.org."⟩]⟩) (fun _ => Except.ok ())
    (by decide) rfl

end Ingressd
